import Mathlib

/-!
Shallow embedding of the user domain service of `part-the-sea/divinity`
(`src/user.go`): the `User` record, the pure validator `validateUser`,
and the six `UserService` operations (`Create`, `GetByID`, `GetByEmail`,
`Update`, `UpdatePassword`, `UpdateEmail`, `Delete`).

Modelling decisions, all taken from the source:
* `time.Time` is modelled as `Nat`; each `time.Now()` call site becomes an
  explicit `Nat` parameter of the operation (the Go code calls `time.Now()`
  twice in `Create`, once in `Update`, once in `UpdateEmail`, and never in
  `UpdatePassword` or the store-facing code).
* Go errors are values; the store may fail with `sql.ErrNoRows` (recognised
  via `errors.Is`) or any other error, modelled by `GoErr`.  A Go
  `(*User, error)` pair becomes `Option User × Option GoErr` so that all four
  nil/non-nil combinations are representable, as they are in Go.
* The `UserStore` interface becomes a record of functions; the service's
  interactions with it are recorded as a `List StoreCall` trace so that
  claims of the form "does not call store Create" are statable.
* `bcrypt.GenerateFromPassword` becomes an arbitrary parameter
  `hash : String → Except GoErr String` (it may fail, as in Go).
* Service-level errors are always `errors.New` of a fixed string, modelled
  as `Option String` (the message).
-/

/-- A Go `error` value as seen by the service: either `sql.ErrNoRows`
(the only error the service inspects, via `errors.Is`) or any other
error carrying its message. -/
inductive GoErr where
  | noRows : GoErr
  | other : String → GoErr
deriving DecidableEq, Repr

/-- The `User` struct of `src/user.go` (`time.Time` modelled as `Nat`). -/
structure User where
  id : String
  firstName : String
  lastName : String
  email : String
  password : String
  createdAt : Nat
  updatedAt : Nat
deriving DecidableEq, Repr

/-- The `UserStore` interface of `src/user.go`: each method returns what the
Go signature returns (`Option User × Option GoErr` for the lookups, an
optional error for the writes). -/
structure UserStore where
  getByID : String → Option User × Option GoErr
  getByEmail : String → Option User × Option GoErr
  create : User → Option GoErr
  update : User → Option GoErr
  delete : String → Option GoErr

/-- One call made by the service to the store, with its argument. -/
inductive StoreCall where
  | getByID : String → StoreCall
  | getByEmail : String → StoreCall
  | create : User → StoreCall
  | update : User → StoreCall
  | delete : String → StoreCall
deriving DecidableEq, Repr

/-- The Go guard `err != nil && !errors.Is(err, sql.ErrNoRows)` used by
`Create` and `UpdateEmail` around the email-uniqueness lookup. -/
def errButNotNoRows : Option GoErr → Bool
  | some GoErr.noRows => false
  | some (GoErr.other _) => true
  | none => false

/-! ### The email regular expression

`validateUser` matches the email against
`^[a-zA-Z0-9._%+-]+@[a-zA-Z0-9.-]+\.[a-zA-Z]{2,}$`.  Since the pattern is
anchored on both sides, `MatchString` holds exactly when the whole string is
in the pattern's language; we decide membership by searching over all split
points. -/

/-- `[a-zA-Z]` of the Go regex. -/
def alphaChar (c : Char) : Bool :=
  ('a' ≤ c && c ≤ 'z') || ('A' ≤ c && c ≤ 'Z')

/-- `[0-9]` of the Go regex. -/
def digitChar (c : Char) : Bool :=
  '0' ≤ c && c ≤ '9'

/-- The local-part character class `[a-zA-Z0-9._%+-]`. -/
def localChar (c : Char) : Bool :=
  alphaChar c || digitChar c || c = '.' || c = '_' || c = '%' || c = '+' || c = '-'

/-- The domain character class `[a-zA-Z0-9.-]`. -/
def domainChar (c : Char) : Bool :=
  alphaChar c || digitChar c || c = '.' || c = '-'

/-- `[a-zA-Z]{2,}` : at least two letters. -/
def tldChars (cs : List Char) : Bool :=
  decide (2 ≤ cs.length) && cs.all alphaChar

/-- Does `cs` decompose as `[a-zA-Z0-9.-]+ "." [a-zA-Z]{2,}` ? -/
def domainTail (cs : List Char) : Bool :=
  (List.range cs.length).any fun i =>
    match cs.drop i with
    | c :: t =>
        decide (c = '.') && decide (cs.take i ≠ []) && (cs.take i).all domainChar
          && tldChars t
    | [] => false

/-- Whole-string match of the anchored Go email regex
`^[a-zA-Z0-9._%+-]+@[a-zA-Z0-9.-]+\.[a-zA-Z]{2,}$`. -/
def emailRegexMatches (s : String) : Bool :=
  let cs := s.toList
  (List.range cs.length).any fun i =>
    match cs.drop i with
    | c :: rest =>
        decide (c = '@') && decide (cs.take i ≠ []) && (cs.take i).all localChar
          && domainTail rest
    | [] => false

/-- `validateUser` of `src/user.go`: the five checks in source order, first
failure returned as the error message. -/
def validateUser (user : User) : Option String :=
  if user.password = "" then some "password is required"
  else if user.firstName = "" then some "first name is required"
  else if user.lastName = "" then some "last name is required"
  else if user.email = "" then some "email is required"
  else if !emailRegexMatches user.email then some "invalid email format"
  else none

/-! ### The service operations -/

/-- `UpdateUserRequest` of `src/user.go`. -/
structure UpdateUserRequest where
  firstName : String
  lastName : String
deriving DecidableEq, Repr

/-- `UpdatePasswordRequest` of `src/user.go`. -/
structure UpdatePasswordRequest where
  password : String
deriving DecidableEq, Repr

/-- `UpdateEmailRequest` of `src/user.go`. -/
structure UpdateEmailRequest where
  email : String
deriving DecidableEq, Repr

/-- Result of `UserService.Create`: the caller's record after the call
(Go mutates it in place through the pointer), the returned error message,
and the trace of store calls made. -/
structure CreateOutcome where
  user : User
  err : Option String
  calls : List StoreCall
deriving DecidableEq, Repr

/-- Result of a mutating service operation: returned error message and the
trace of store calls made. -/
structure MutOutcome where
  err : Option String
  calls : List StoreCall
deriving DecidableEq, Repr

namespace UserService

/-- `UserService.Create` (`src/user.go` lines 152–188).  `now1`, `now2` are
the two `time.Now()` results (lines 153–154), `hash` is
`bcrypt.GenerateFromPassword`. -/
def create (store : UserStore) (hash : String → Except GoErr String)
    (now1 now2 : Nat) (user0 : User) : CreateOutcome :=
  let u1 := { user0 with createdAt := now1, updatedAt := now2 }
  match validateUser u1 with
  | some msg => ⟨u1, some msg, []⟩
  | none =>
    match hash u1.password with
    | Except.error _ => ⟨u1, some "an internal error occurred", []⟩
    | Except.ok hp =>
      let u2 := { u1 with password := hp }
      let res := store.getByEmail u2.email
      if errButNotNoRows res.2 then
        ⟨u2, some "an internal error occurred", [StoreCall.getByEmail u2.email]⟩
      else if res.1.isSome then
        ⟨u2, some "user with this email already exists", [StoreCall.getByEmail u2.email]⟩
      else
        match store.create u2 with
        | some _ =>
          ⟨u2, some "an internal error occurred",
            [StoreCall.getByEmail u2.email, StoreCall.create u2]⟩
        | none => ⟨u2, none, [StoreCall.getByEmail u2.email, StoreCall.create u2]⟩

/-- `UserService.GetByID` (`src/user.go` lines 190–203). -/
def getByID (store : UserStore) (id : String) : Option User × Option String :=
  let res := store.getByID id
  match res.2 with
  | some _ => (none, some "an internal error occurred")
  | none =>
    match res.1 with
    | none => (none, some "user not found")
    | some u => (some u, none)

/-- `UserService.GetByEmail` (`src/user.go` lines 205–218). -/
def getByEmail (store : UserStore) (email : String) : Option User × Option String :=
  let res := store.getByEmail email
  match res.2 with
  | some _ => (none, some "an internal error occurred")
  | none =>
    match res.1 with
    | none => (none, some "user not found")
    | some u => (some u, none)

/-- `UserService.Update` (`src/user.go` lines 225–255), including the
as-written conditions `if request.FirstName == ""` / `if request.LastName == ""`
guarding the field assignments.  `now` is the `time.Now()` of line 245. -/
def update (store : UserStore) (now : Nat) (id : String)
    (request : UpdateUserRequest) : MutOutcome :=
  let res := store.getByID id
  match res.2 with
  | some _ => ⟨some "an internal error occurred", [StoreCall.getByID id]⟩
  | none =>
    match res.1 with
    | none => ⟨some "user not found", [StoreCall.getByID id]⟩
    | some u =>
      let u1 := { u with
        firstName := if request.firstName = "" then request.firstName else u.firstName,
        lastName := if request.lastName = "" then request.lastName else u.lastName,
        updatedAt := now }
      match store.update u1 with
      | some _ =>
        ⟨some "an internal error occurred", [StoreCall.getByID id, StoreCall.update u1]⟩
      | none => ⟨none, [StoreCall.getByID id, StoreCall.update u1]⟩

/-- `UserService.UpdatePassword` (`src/user.go` lines 261–293).  Note the
source never touches `UpdatedAt` here and never calls `time.Now()`. -/
def updatePassword (store : UserStore) (hash : String → Except GoErr String)
    (id : String) (request : UpdatePasswordRequest) : MutOutcome :=
  let res := store.getByID id
  match res.2 with
  | some _ => ⟨some "an internal error occurred", [StoreCall.getByID id]⟩
  | none =>
    match res.1 with
    | none => ⟨some "user not found", [StoreCall.getByID id]⟩
    | some u =>
      if request.password = "" then
        ⟨some "password is required", [StoreCall.getByID id]⟩
      else
        match hash request.password with
        | Except.error _ => ⟨some "an internal error occurred", [StoreCall.getByID id]⟩
        | Except.ok hp =>
          let u1 := { u with password := hp }
          match store.update u1 with
          | some _ =>
            ⟨some "an internal error occurred", [StoreCall.getByID id, StoreCall.update u1]⟩
          | none => ⟨none, [StoreCall.getByID id, StoreCall.update u1]⟩

/-- `UserService.UpdateEmail` (`src/user.go` lines 299–337).  `now` is the
`time.Now()` of line 327. -/
def updateEmail (store : UserStore) (now : Nat) (id : String)
    (request : UpdateEmailRequest) : MutOutcome :=
  let res := store.getByID id
  match res.2 with
  | some _ => ⟨some "an internal error occurred", [StoreCall.getByID id]⟩
  | none =>
    match res.1 with
    | none => ⟨some "user not found", [StoreCall.getByID id]⟩
    | some u =>
      if request.email = "" then
        ⟨some "email is required", [StoreCall.getByID id]⟩
      else
        let res2 := store.getByEmail request.email
        if errButNotNoRows res2.2 then
          ⟨some "an internal error occurred",
            [StoreCall.getByID id, StoreCall.getByEmail request.email]⟩
        else if res2.1.isSome then
          ⟨some "user with this email already exists",
            [StoreCall.getByID id, StoreCall.getByEmail request.email]⟩
        else
          let u1 := { u with email := request.email, updatedAt := now }
          match store.update u1 with
          | some _ =>
            ⟨some "an internal error occurred",
              [StoreCall.getByID id, StoreCall.getByEmail request.email,
                StoreCall.update u1]⟩
          | none =>
            ⟨none,
              [StoreCall.getByID id, StoreCall.getByEmail request.email,
                StoreCall.update u1]⟩

/-- `UserService.Delete` (`src/user.go` lines 339–359). -/
def delete (store : UserStore) (id : String) : MutOutcome :=
  let res := store.getByID id
  match res.2 with
  | some _ => ⟨some "an internal error occurred", [StoreCall.getByID id]⟩
  | none =>
    match res.1 with
    | none => ⟨some "user not found", [StoreCall.getByID id]⟩
    | some _ =>
      match store.delete id with
      | some _ =>
        ⟨some "an internal error occurred", [StoreCall.getByID id, StoreCall.delete id]⟩
      | none => ⟨none, [StoreCall.getByID id, StoreCall.delete id]⟩

end UserService

/-! ### Spec-side definitions (for refinement claims)

`specValidateUser` is written from the spec's words (§4.1): a fixed ordered
list of checks, the first failing check's message returned, no aggregation.
`specEmailFormat` is the spec's description of the email pattern:
`local-part@domain.tld`, local-part non-empty over letters/digits/`._%+-`,
domain non-empty over letters/digits/`.`/`-`, top-level segment letters
only with length ≥ 2. -/

/-- Return the message of the first check in the list whose condition fails. -/
def firstFailed : List (Bool × String) → Option String
  | [] => none
  | (ok, msg) :: rest => if ok then firstFailed rest else some msg

/-- Modelled from the spec (§4.1): the five checks in their fixed order. -/
def specValidationChecks (user : User) : List (Bool × String) :=
  [ (decide (user.password ≠ ""), "password is required"),
    (decide (user.firstName ≠ ""), "first name is required"),
    (decide (user.lastName ≠ ""), "last name is required"),
    (decide (user.email ≠ ""), "email is required"),
    (emailRegexMatches user.email, "invalid email format") ]

/-- Modelled from the spec (§4.1): evaluate the checks in fixed order and
return the first failure (no aggregation), success otherwise. -/
def specValidateUser (user : User) : Option String :=
  firstFailed (specValidationChecks user)

/-- Modelled from the spec (§4.1, check 5): the email decomposes as
`local-part@domain.tld` with the stated character classes and a letters-only
top-level segment of length ≥ 2. -/
def specEmailFormat (s : String) : Prop :=
  ∃ l d t : List Char,
    s.toList = l ++ '@' :: (d ++ '.' :: t) ∧
    l ≠ [] ∧ l.all localChar = true ∧
    d ≠ [] ∧ d.all domainChar = true ∧
    2 ≤ t.length ∧ t.all alphaChar = true

/-! ### Concrete fixtures used by witnesses and counterexamples -/

/-- A hashing function that always succeeds (tags the plaintext). -/
def okHash : String → Except GoErr String := fun s => Except.ok ("h-" ++ s)

/-- A persisted record as the store would return it. -/
def johnUser : User :=
  ⟨"1", "John", "Doe", "john.doe@example.com", "hashed", 3, 4⟩

/-- A different persisted record holding some email. -/
def janeUser : User :=
  ⟨"2", "Jane", "Doe", "john.doe@example.com", "hashed2", 1, 2⟩

/-- A caller-supplied record before creation (plaintext password, no id). -/
def plainUser : User :=
  ⟨"", "John", "Doe", "john.doe@example.com", "password", 0, 0⟩

/-- Store: id `1` resolves to `johnUser`; no email is taken; all writes
succeed. -/
def storeHappy : UserStore :=
  ⟨fun i => if i = "1" then (some johnUser, none) else (none, none),
   fun _ => (none, none), fun _ => none, fun _ => none, fun _ => none⟩

/-- Store: id `1` resolves to `johnUser`; every email lookup reports
`janeUser`; all writes succeed. -/
def storeConflict : UserStore :=
  ⟨fun i => if i = "1" then (some johnUser, none) else (none, none),
   fun _ => (some janeUser, none), fun _ => none, fun _ => none, fun _ => none⟩

/-- Store: every lookup fails with a non-`noRows` error. -/
def storeErr : UserStore :=
  ⟨fun _ => (none, some (GoErr.other "boom")),
   fun _ => (none, some (GoErr.other "boom")),
   fun _ => some (GoErr.other "boom"), fun _ => some (GoErr.other "boom"),
   fun _ => some (GoErr.other "boom")⟩

/-- Store: every lookup signals absence with `sql.ErrNoRows` (record `nil`,
error `noRows`); all writes succeed. -/
def storeNoRows : UserStore :=
  ⟨fun _ => (none, some GoErr.noRows), fun _ => (none, some GoErr.noRows),
   fun _ => none, fun _ => none, fun _ => none⟩

/-- Store: every lookup signals absence the nil/nil way; all writes
succeed. -/
def storeEmpty : UserStore :=
  ⟨fun _ => (none, none), fun _ => (none, none),
   fun _ => none, fun _ => none, fun _ => none⟩

/-- Store for the same-user email-conflict scenario: id `1` resolves to
`johnUser`, and looking up `johnUser`'s own current email returns that very
record. -/
def storeSelfEmail : UserStore :=
  ⟨fun i => if i = "1" then (some johnUser, none) else (none, none),
   fun e => if e = "john.doe@example.com" then (some johnUser, none) else (none, none),
   fun _ => none, fun _ => none, fun _ => none⟩

/-- Store whose loaded record carries stale timestamps (`createdAt 3`,
`updatedAt 5`), to observe which mutating operations refresh them. -/
def staleUser : User :=
  ⟨"1", "John", "Doe", "john.doe@example.com", "oldhash", 3, 5⟩

/-- Store: id `1` resolves to `staleUser`; all writes succeed. -/
def storeStale : UserStore :=
  ⟨fun i => if i = "1" then (some staleUser, none) else (none, none),
   fun _ => (none, none), fun _ => none, fun _ => none, fun _ => none⟩

/-- The closed set of caller-visible error messages (§7 of the spec). -/
def errorMessages : List String :=
  ["password is required", "first name is required", "last name is required",
   "email is required", "invalid email format",
   "user with this email already exists", "user not found",
   "an internal error occurred"]

example : emailRegexMatches "john.doe@example.com" = true := by decide
example : emailRegexMatches "john.doe" = false := by decide
example : emailRegexMatches "a@b.co" = true := by decide
example : emailRegexMatches "a@b.c" = false := by decide
example : validateUser plainUser = none := by decide
example : validateUser { plainUser with password := "" } = some "password is required" := by
  decide
example : validateUser { plainUser with password := "", firstName := "" } =
    some "password is required" := by decide

/-! ### Theorems -/

/-- `domainTail` decides the decomposition `[a-zA-Z0-9.-]+ "." [a-zA-Z]{2,}`. -/
theorem domainTail_iff (cs : List Char) :
    domainTail cs = true ↔
      ∃ d t : List Char, cs = d ++ '.' :: t ∧ d ≠ [] ∧ d.all domainChar = true ∧
        2 ≤ t.length ∧ t.all alphaChar = true := by
  unfold domainTail
  rw [List.any_eq_true]
  constructor
  · rintro ⟨i, hi, hp⟩
    rcases hx : cs.drop i with _ | ⟨c, t⟩ <;> rw [hx] at hp
    · simp at hp
    · simp only [tldChars, Bool.and_eq_true, decide_eq_true_eq] at hp
      obtain ⟨⟨⟨hc, hne⟩, hd⟩, hlen, ht⟩ := hp
      subst hc
      refine ⟨cs.take i, t, ?_, hne, hd, hlen, ht⟩
      conv_lhs => rw [← List.take_append_drop i cs]
      rw [hx]
  · rintro ⟨d, t, hcs, hd0, hd, hlen, ht⟩
    refine ⟨d.length, ?_, ?_⟩
    · rw [List.mem_range, hcs, List.length_append, List.length_cons]
      omega
    · have hdrop : cs.drop d.length = '.' :: t := by
        rw [hcs, List.drop_left]
      have htake : cs.take d.length = d := by
        rw [hcs, List.take_left]
      rw [hdrop, htake]
      simp only [tldChars, Bool.and_eq_true, decide_eq_true_eq]
      exact ⟨⟨⟨trivial, hd0⟩, hd⟩, hlen, ht⟩

/-- The translated Go regex decides exactly the email shape the spec
describes. -/
theorem emailRegexMatches_iff (s : String) :
    emailRegexMatches s = true ↔ specEmailFormat s := by
  unfold emailRegexMatches specEmailFormat
  rw [List.any_eq_true]
  constructor
  · rintro ⟨i, hi, hp⟩
    rcases hx : s.toList.drop i with _ | ⟨c, rest⟩ <;> rw [hx] at hp
    · simp at hp
    · simp only [Bool.and_eq_true, decide_eq_true_eq] at hp
      obtain ⟨⟨⟨hc, hne⟩, hl⟩, hdt⟩ := hp
      subst hc
      obtain ⟨d, t, hrest, hd0, hd, hlen, ht⟩ := (domainTail_iff rest).mp hdt
      refine ⟨s.toList.take i, d, t, ?_, hne, hl, hd0, hd, hlen, ht⟩
      conv_lhs => rw [← List.take_append_drop i s.toList]
      rw [hx, hrest]
  · rintro ⟨l, d, t, hcs, hl0, hl, hd0, hd, hlen, ht⟩
    refine ⟨l.length, ?_, ?_⟩
    · rw [List.mem_range, hcs, List.length_append, List.length_cons]
      omega
    · have hdrop : s.toList.drop l.length = '@' :: (d ++ '.' :: t) := by
        rw [hcs, List.drop_left]
      have htake : s.toList.take l.length = l := by
        rw [hcs, List.take_left]
      rw [hdrop, htake]
      simp only [Bool.and_eq_true, decide_eq_true_eq]
      refine ⟨⟨⟨trivial, hl0⟩, hl⟩, ?_⟩
      rw [domainTail_iff]
      exact ⟨d, t, rfl, hd0, hd, hlen, ht⟩

/-- **C4.** `validateUser` succeeds exactly when all five checks pass and
otherwise returns the message of the first violated check in the fixed
order (password, first name, last name, email non-empty, email format):
it coincides with the spec-modelled first-failing-check validator, and the
embedded email regex decides exactly the spec's stated pattern. -/
theorem validateUser_first_violated_check (u : User) :
    validateUser u = specValidateUser u ∧
    (emailRegexMatches u.email = true ↔ specEmailFormat u.email) := by
  refine ⟨?_, emailRegexMatches_iff u.email⟩
  by_cases h1 : u.password = "" <;>
  by_cases h2 : u.firstName = "" <;>
  by_cases h3 : u.lastName = "" <;>
  by_cases h4 : u.email = "" <;>
  cases h5 : emailRegexMatches u.email <;>
  simp [validateUser, specValidateUser, specValidationChecks, firstFailed,
    h1, h2, h3, h4, h5]

/-- **C1 (code bug).** With the stored record `John Doe` under id `1` and the
request `{firstName: "Jane", lastName: "Smith"}`, `UserService.Update`
returns no error yet persists the record with first and last name unchanged
(`John`, `Doe`): the guards on the field assignments read `== ""` instead of
`!= ""`, so a non-empty requested name is never applied (and only an empty
one would be). -/
theorem update_ignores_requested_names :
    (UserService.update storeHappy 9 "1" ⟨"Jane", "Smith"⟩).err = none ∧
    (UserService.update storeHappy 9 "1" ⟨"Jane", "Smith"⟩).calls =
      [StoreCall.getByID "1",
        StoreCall.update ⟨"1", "John", "Doe", "john.doe@example.com", "hashed", 3, 9⟩] := by
  constructor <;> rfl

/-- **C2 (counterexample).** `UserService.UpdateEmail` rejects even the very
user being updated: id `1` resolves to `johnUser` and the conflict lookup for
the requested email returns that same record (same id `1`), yet the service
returns `user with this email already exists` and never calls store Update,
where the claim promises success. -/
theorem updateEmail_rejects_same_user :
    (UserService.updateEmail storeSelfEmail 9 "1" ⟨"john.doe@example.com"⟩).err =
      some "user with this email already exists" ∧
    (UserService.updateEmail storeSelfEmail 9 "1" ⟨"john.doe@example.com"⟩).calls =
      [StoreCall.getByID "1", StoreCall.getByEmail "john.doe@example.com"] := by
  constructor <;> rfl

/-- **C2 (amended).** When the record exists and the email is non-empty,
`UserService.UpdateEmail` returns `user with this email already exists`
whenever the conflict lookup returns any record at all — the id of that
record is never compared, so the user being updated conflicts with itself —
and persists with no error exactly when the lookup returns no record
(nil/nil or `sql.ErrNoRows`). -/
theorem updateEmail_conflict_behavior (store : UserStore) (now : Nat) (id : String)
    (req : UpdateEmailRequest) (u : User)
    (hget : store.getByID id = (some u, none)) (hne : req.email ≠ "") :
    (∀ w e, store.getByEmail req.email = (some w, e) →
      (e = none ∨ e = some GoErr.noRows) →
      (UserService.updateEmail store now id req).err =
        some "user with this email already exists") ∧
    (∀ e, store.getByEmail req.email = (none, e) →
      (e = none ∨ e = some GoErr.noRows) →
      store.update { u with email := req.email, updatedAt := now } = none →
      (UserService.updateEmail store now id req).err = none) := by
  constructor
  · rintro w e hge (rfl | rfl) <;>
      simp [UserService.updateEmail, hget, hne, hge, errButNotNoRows]
  · rintro e hge (rfl | rfl) hupd <;>
      simp [UserService.updateEmail, hget, hne, hge, hupd, errButNotNoRows]

/-- Witness for the amended C2 theorem at a concrete store: the same-user
conflict is rejected. -/
theorem updateEmail_conflict_behavior_witness :
    (UserService.updateEmail storeSelfEmail 9 "1" ⟨"john.doe@example.com"⟩).err =
      some "user with this email already exists" :=
  (updateEmail_conflict_behavior storeSelfEmail 9 "1" ⟨"john.doe@example.com"⟩
    johnUser (by decide) (by decide)).1 johnUser none (by decide) (Or.inl rfl)

/-- **C3 (counterexample).** A successful `UserService.UpdatePassword` run
against a record whose stored `updatedAt` is `5` persists the record still
carrying `updatedAt = 5` (and `createdAt = 3`): the operation captures no
current time at all (the source never calls `time.Now()` there), so
`updatedAt` is not refreshed, contradicting the claim for password
changes. -/
theorem updatePassword_keeps_stale_updatedAt :
    (UserService.updatePassword storeStale okHash "1" ⟨"newpw"⟩).err = none ∧
    (UserService.updatePassword storeStale okHash "1" ⟨"newpw"⟩).calls =
      [StoreCall.getByID "1",
        StoreCall.update ⟨"1", "John", "Doe", "john.doe@example.com", "h-newpw", 3, 5⟩] := by
  constructor <;> rfl

/-- **C3 (amended).** Timestamps of the record each operation hands to the
store: `Create` stamps `createdAt`/`updatedAt` with the two times captured
during the call; `Update` and `UpdateEmail` set the persisted record's
`updatedAt` to the time captured during the call and leave `createdAt` as
loaded; `UpdatePassword` captures no time and persists both `createdAt` and
`updatedAt` exactly as loaded from the store. -/
theorem timestamps_policy (store : UserStore) (hash : String → Except GoErr String)
    (now now1 now2 : Nat) (id : String) (u user0 : User)
    (r1 : UpdateUserRequest) (r2 : UpdatePasswordRequest) (r3 : UpdateEmailRequest) :
    (∀ v, StoreCall.create v ∈ (UserService.create store hash now1 now2 user0).calls →
      v.createdAt = now1 ∧ v.updatedAt = now2) ∧
    (store.getByID id = (some u, none) →
      (∀ v, StoreCall.update v ∈ (UserService.update store now id r1).calls →
        v.createdAt = u.createdAt ∧ v.updatedAt = now) ∧
      (∀ v, StoreCall.update v ∈ (UserService.updatePassword store hash id r2).calls →
        v.createdAt = u.createdAt ∧ v.updatedAt = u.updatedAt) ∧
      (∀ v, StoreCall.update v ∈ (UserService.updateEmail store now id r3).calls →
        v.createdAt = u.createdAt ∧ v.updatedAt = now)) := by
  constructor
  · intro v hv
    simp only [UserService.create] at hv
    split at hv
    · simp at hv
    · split at hv
      · simp at hv
      · split at hv
        · simp at hv
        · split at hv
          · simp at hv
          · split at hv <;> simp at hv <;> subst hv <;> exact ⟨rfl, rfl⟩
  · intro hget
    refine ⟨?_, ?_, ?_⟩
    · intro v hv
      simp only [UserService.update, hget] at hv
      split at hv <;> simp at hv <;> subst hv <;> exact ⟨rfl, rfl⟩
    · intro v hv
      simp only [UserService.updatePassword, hget] at hv
      split at hv
      · simp at hv
      · split at hv
        · simp at hv
        · split at hv <;> simp at hv <;> subst hv <;> exact ⟨rfl, rfl⟩
    · intro v hv
      simp only [UserService.updateEmail, hget] at hv
      split at hv
      · simp at hv
      · split at hv
        · simp at hv
        · split at hv
          · simp at hv
          · split at hv <;> simp at hv <;> subst hv <;> exact ⟨rfl, rfl⟩

/-- **C5.** For a valid input whose hashing succeeds, when the store's email
lookup reports an existing user (with no error, or with `sql.ErrNoRows`),
`UserService.Create` returns `user with this email already exists` and its
store-call trace is the lone `GetByEmail` — store `Create` was never
called. -/
theorem create_conflict_skips_store_create (store : UserStore)
    (hash : String → Except GoErr String) (now1 now2 : Nat) (u w : User)
    (hp : String) (e : Option GoErr)
    (hval : validateUser { u with createdAt := now1, updatedAt := now2 } = none)
    (hhash : hash u.password = Except.ok hp)
    (hge : store.getByEmail u.email = (some w, e))
    (he : e = none ∨ e = some GoErr.noRows) :
    (UserService.create store hash now1 now2 u).err =
      some "user with this email already exists" ∧
    (UserService.create store hash now1 now2 u).calls =
      [StoreCall.getByEmail u.email] := by
  rcases he with rfl | rfl <;>
    simp [UserService.create, hval, hhash, hge, errButNotNoRows]

/-- Witness for C5 at a concrete store whose email lookup reports
`janeUser`. -/
theorem create_conflict_skips_store_create_witness :
    (UserService.create storeConflict okHash 1 2 plainUser).err =
      some "user with this email already exists" ∧
    (UserService.create storeConflict okHash 1 2 plainUser).calls =
      [StoreCall.getByEmail "john.doe@example.com"] :=
  create_conflict_skips_store_create storeConflict okHash 1 2 plainUser
    janeUser "h-password" none (by decide) rfl (by decide) (Or.inl rfl)

/-- **C6.** `UserService.GetByID` and `UserService.GetByEmail`: a store
lookup error (any error value, whatever the record) yields
`an internal error occurred`; store absence (no record, no error) yields
`user not found`; a record with no error is returned exactly as the store
returned it, with no error. -/
theorem get_operations_case_analysis (store : UserStore) (id email : String) :
    (∀ e, (store.getByID id).2 = some e →
      UserService.getByID store id = (none, some "an internal error occurred")) ∧
    (store.getByID id = (none, none) →
      UserService.getByID store id = (none, some "user not found")) ∧
    (∀ u, store.getByID id = (some u, none) →
      UserService.getByID store id = (some u, none)) ∧
    (∀ e, (store.getByEmail email).2 = some e →
      UserService.getByEmail store email = (none, some "an internal error occurred")) ∧
    (store.getByEmail email = (none, none) →
      UserService.getByEmail store email = (none, some "user not found")) ∧
    (∀ u, store.getByEmail email = (some u, none) →
      UserService.getByEmail store email = (some u, none)) := by
  refine ⟨fun e h => ?_, fun h => ?_, fun u h => ?_,
    fun e h => ?_, fun h => ?_, fun u h => ?_⟩ <;>
    simp [UserService.getByID, UserService.getByEmail, h]

/-- Witness for C6: the nil/nil absence signal maps to `user not found`. -/
theorem get_operations_case_analysis_witness :
    UserService.getByID storeEmpty "1" = (none, some "user not found") :=
  (get_operations_case_analysis storeEmpty "1" "a").2.1 rfl

/-- **C8.** The record `UserService.Update` hands to the store's `Update`
carries exactly the email and password of the record loaded via `GetByID`:
the operation never changes those fields. -/
theorem update_preserves_email_password (store : UserStore) (now : Nat)
    (id : String) (req : UpdateUserRequest) (u : User)
    (hget : store.getByID id = (some u, none)) :
    ∀ v, StoreCall.update v ∈ (UserService.update store now id req).calls →
      v.email = u.email ∧ v.password = u.password := by
  intro v hv
  simp only [UserService.update, hget] at hv
  split at hv <;> simp at hv <;> subst hv <;> exact ⟨rfl, rfl⟩

/-- Witness for C8: the concrete record persisted by a concrete `Update` run
keeps `johnUser`'s email and password. -/
theorem update_preserves_email_password_witness :
    (⟨"1", "John", "Doe", "john.doe@example.com", "hashed", 3, 9⟩ : User).email =
        johnUser.email ∧
    (⟨"1", "John", "Doe", "john.doe@example.com", "hashed", 3, 9⟩ : User).password =
        johnUser.password :=
  update_preserves_email_password storeHappy 9 "1" ⟨"Jane", "Smith"⟩ johnUser (by decide)
    ⟨"1", "John", "Doe", "john.doe@example.com", "hashed", 3, 9⟩ (by decide)

/-- Every message `validateUser` can return is in the closed set. -/
theorem validateUser_mem_errorMessages (u : User) (m : String)
    (h : validateUser u = some m) : m ∈ errorMessages := by
  unfold validateUser at h
  split_ifs at h <;> simp_all [errorMessages]

/-- Every message `UserService.create` can return is in the closed set. -/
theorem create_err_mem (store : UserStore) (hash : String → Except GoErr String)
    (now1 now2 : Nat) (u : User) (m : String)
    (h : (UserService.create store hash now1 now2 u).err = some m) :
    m ∈ errorMessages := by
  simp only [UserService.create] at h
  split at h
  · next msg heq =>
    simp at h
    exact h ▸ validateUser_mem_errorMessages _ _ heq
  · split at h
    · simp at h
      simp [h.symm, errorMessages]
    · split at h
      · simp at h
        simp [h.symm, errorMessages]
      · split at h
        · simp at h
          simp [h.symm, errorMessages]
        · split at h <;> simp at h <;> simp [h.symm, errorMessages]

/-- Every message `UserService.getByID` can return is in the closed set. -/
theorem getByID_err_mem (store : UserStore) (id : String) (m : String)
    (h : (UserService.getByID store id).2 = some m) : m ∈ errorMessages := by
  simp only [UserService.getByID] at h
  split at h
  · simp at h
    simp [h.symm, errorMessages]
  · split at h <;> simp at h <;> simp [h.symm, errorMessages]

/-- Every message `UserService.getByEmail` can return is in the closed set. -/
theorem getByEmail_err_mem (store : UserStore) (email : String) (m : String)
    (h : (UserService.getByEmail store email).2 = some m) : m ∈ errorMessages := by
  simp only [UserService.getByEmail] at h
  split at h
  · simp at h
    simp [h.symm, errorMessages]
  · split at h <;> simp at h <;> simp [h.symm, errorMessages]

/-- Every message `UserService.update` can return is in the closed set. -/
theorem update_err_mem (store : UserStore) (now : Nat) (id : String)
    (r : UpdateUserRequest) (m : String)
    (h : (UserService.update store now id r).err = some m) : m ∈ errorMessages := by
  simp only [UserService.update] at h
  split at h
  · simp at h
    simp [h.symm, errorMessages]
  · split at h
    · simp at h
      simp [h.symm, errorMessages]
    · split at h <;> simp at h <;> simp [h.symm, errorMessages]

/-- Every message `UserService.updatePassword` can return is in the closed
set. -/
theorem updatePassword_err_mem (store : UserStore)
    (hash : String → Except GoErr String) (id : String)
    (r : UpdatePasswordRequest) (m : String)
    (h : (UserService.updatePassword store hash id r).err = some m) :
    m ∈ errorMessages := by
  simp only [UserService.updatePassword] at h
  split at h
  · simp at h
    simp [h.symm, errorMessages]
  · split at h
    · simp at h
      simp [h.symm, errorMessages]
    · split at h
      · simp at h
        simp [h.symm, errorMessages]
      · split at h
        · simp at h
          simp [h.symm, errorMessages]
        · split at h <;> simp at h <;> simp [h.symm, errorMessages]

/-- Every message `UserService.updateEmail` can return is in the closed
set. -/
theorem updateEmail_err_mem (store : UserStore) (now : Nat) (id : String)
    (r : UpdateEmailRequest) (m : String)
    (h : (UserService.updateEmail store now id r).err = some m) :
    m ∈ errorMessages := by
  simp only [UserService.updateEmail] at h
  split at h
  · simp at h
    simp [h.symm, errorMessages]
  · split at h
    · simp at h
      simp [h.symm, errorMessages]
    · split at h
      · simp at h
        simp [h.symm, errorMessages]
      · split at h
        · simp at h
          simp [h.symm, errorMessages]
        · split at h
          · simp at h
            simp [h.symm, errorMessages]
          · split at h <;> simp at h <;> simp [h.symm, errorMessages]

/-- Every message `UserService.delete` can return is in the closed set. -/
theorem delete_err_mem (store : UserStore) (id : String) (m : String)
    (h : (UserService.delete store id).err = some m) : m ∈ errorMessages := by
  simp only [UserService.delete] at h
  split at h
  · simp at h
    simp [h.symm, errorMessages]
  · split at h
    · simp at h
      simp [h.symm, errorMessages]
    · split at h <;> simp at h <;> simp [h.symm, errorMessages]

/-- **C7.** Whatever the store and hashing function do, any error any of the
seven service operations returns is one of the eight fixed messages of the
closed set; no underlying store or hashing error text ever reaches the
caller (the service only ever returns these literals). -/
theorem service_errors_closed (store : UserStore)
    (hash : String → Except GoErr String) (now now1 now2 : Nat) (u : User)
    (id email : String) (r1 : UpdateUserRequest) (r2 : UpdatePasswordRequest)
    (r3 : UpdateEmailRequest) (m : String) :
    ((UserService.create store hash now1 now2 u).err = some m → m ∈ errorMessages) ∧
    ((UserService.getByID store id).2 = some m → m ∈ errorMessages) ∧
    ((UserService.getByEmail store email).2 = some m → m ∈ errorMessages) ∧
    ((UserService.update store now id r1).err = some m → m ∈ errorMessages) ∧
    ((UserService.updatePassword store hash id r2).err = some m → m ∈ errorMessages) ∧
    ((UserService.updateEmail store now id r3).err = some m → m ∈ errorMessages) ∧
    ((UserService.delete store id).err = some m → m ∈ errorMessages) :=
  ⟨create_err_mem store hash now1 now2 u m,
    getByID_err_mem store id m,
    getByEmail_err_mem store email m,
    update_err_mem store now id r1 m,
    updatePassword_err_mem store hash id r2 m,
    updateEmail_err_mem store now id r3 m,
    delete_err_mem store id m⟩

/-- Witness for C7: a store whose lookup errors with `boom` makes `GetByID`
return a message of the closed set (never `boom`). -/
theorem service_errors_closed_witness :
    "an internal error occurred" ∈ errorMessages :=
  (service_errors_closed storeErr okHash 0 1 2 plainUser "1" "a" ⟨"Jane", "Smith"⟩
    ⟨"pw"⟩ ⟨"a@b.co"⟩ "an internal error occurred").2.1 rfl

/-- **C9.** `UserService.Create` mutates the caller-supplied record in place
even on error paths: whatever the store does and whatever error comes back,
the caller's record carries `createdAt = now1` and `updatedAt = now2`
(stamped before validation even runs), and as soon as validation and hashing
succeed — so in particular after a `user with this email already exists` or
store-failure result — its password field holds the hash, not the
plaintext. -/
theorem create_mutates_caller_record (store : UserStore)
    (hash : String → Except GoErr String) (now1 now2 : Nat) (u : User)
    (hp : String) :
    (UserService.create store hash now1 now2 u).user.createdAt = now1 ∧
    (UserService.create store hash now1 now2 u).user.updatedAt = now2 ∧
    (validateUser { u with createdAt := now1, updatedAt := now2 } = none →
      hash u.password = Except.ok hp →
      (UserService.create store hash now1 now2 u).user.password = hp) := by
  rcases hv : validateUser { u with createdAt := now1, updatedAt := now2 } with _ | msg
  · rcases hh : hash u.password with e | hp2
    · refine ⟨?_, ?_, ?_⟩
      · simp [UserService.create, hv, hh]
      · simp [UserService.create, hv, hh]
      · intro _ hok
        simp at hok
    · have hsplit : ∀ p : User → Nat,
          p (UserService.create store hash now1 now2 u).user =
            p ⟨u.id, u.firstName, u.lastName, u.email, hp2, now1, now2⟩ := by
        intro p
        simp only [UserService.create, hv, hh]
        split
        · rfl
        · split
          · rfl
          · split <;> rfl
      have hpw : (UserService.create store hash now1 now2 u).user.password = hp2 := by
        simp only [UserService.create, hv, hh]
        split
        · rfl
        · split
          · rfl
          · split <;> rfl
      refine ⟨hsplit User.createdAt, hsplit User.updatedAt, ?_⟩
      intro _ hok
      simp only [Except.ok.injEq] at hok
      rw [hpw, hok]
  · refine ⟨?_, ?_, ?_⟩
    · simp [UserService.create, hv]
    · simp [UserService.create, hv]
    · intro hval _
      simp at hval

/-- Witness for C9: after the conflict-rejected `Create` run, the caller's
record carries the stamps and the hash, not the plaintext. -/
theorem create_mutates_caller_record_witness :
    (UserService.create storeConflict okHash 1 2 plainUser).user.createdAt = 1 ∧
    (UserService.create storeConflict okHash 1 2 plainUser).user.updatedAt = 2 ∧
    (UserService.create storeConflict okHash 1 2 plainUser).user.password =
      "h-password" := by
  have h := create_mutates_caller_record storeConflict okHash 1 2 plainUser "h-password"
  exact ⟨h.1, h.2.1, h.2.2 (by decide) rfl⟩

/-- **C10.** The absence signal the lookups in `GetByID`, `GetByEmail`,
`Update`, `UpdatePassword`, `UpdateEmail` and `Delete` accept is exclusively
nil record with nil error: a store that signals absence with `sql.ErrNoRows`
makes them all return `an internal error occurred` rather than
`user not found`; the email-uniqueness lookups inside `Create` and
`UpdateEmail`, by contrast, treat `sql.ErrNoRows` as absence and the
operations proceed to a successful write. -/
theorem noRows_absence_asymmetry (store : UserStore)
    (hash : String → Except GoErr String) (now now1 now2 : Nat)
    (id email : String) (u w : User) (hp : String) (r1 : UpdateUserRequest)
    (r2 : UpdatePasswordRequest) (r3 : UpdateEmailRequest) :
    (store.getByID id = (none, some GoErr.noRows) →
      UserService.getByID store id = (none, some "an internal error occurred") ∧
      (UserService.update store now id r1).err = some "an internal error occurred" ∧
      (UserService.updatePassword store hash id r2).err =
        some "an internal error occurred" ∧
      (UserService.updateEmail store now id r3).err =
        some "an internal error occurred" ∧
      (UserService.delete store id).err = some "an internal error occurred") ∧
    (store.getByEmail email = (none, some GoErr.noRows) →
      UserService.getByEmail store email =
        (none, some "an internal error occurred")) ∧
    (validateUser { u with createdAt := now1, updatedAt := now2 } = none →
      hash u.password = Except.ok hp →
      store.getByEmail u.email = (none, some GoErr.noRows) →
      store.create ⟨u.id, u.firstName, u.lastName, u.email, hp, now1, now2⟩ = none →
      (UserService.create store hash now1 now2 u).err = none) ∧
    (store.getByID id = (some w, none) → r3.email ≠ "" →
      store.getByEmail r3.email = (none, some GoErr.noRows) →
      store.update ⟨w.id, w.firstName, w.lastName, r3.email, w.password,
        w.createdAt, now⟩ = none →
      (UserService.updateEmail store now id r3).err = none) := by
  refine ⟨?_, ?_, ?_, ?_⟩
  · intro h
    refine ⟨?_, ?_, ?_, ?_, ?_⟩ <;>
      simp [UserService.getByID, UserService.update, UserService.updatePassword,
        UserService.updateEmail, UserService.delete, h]
  · intro h
    simp [UserService.getByEmail, h]
  · intro hval hok hge hcr
    simp [UserService.create, hval, hok, hge, hcr, errButNotNoRows]
  · intro hget hne hge hupd
    simp [UserService.updateEmail, hget, hne, hge, hupd, errButNotNoRows]

/-- Witness for C10: the `sql.ErrNoRows` store makes `GetByID` report an
internal error, not `user not found`. -/
theorem noRows_absence_asymmetry_witness :
    UserService.getByID storeNoRows "1" =
      (none, some "an internal error occurred") :=
  ((noRows_absence_asymmetry storeNoRows okHash 0 1 2 "1" "a" plainUser johnUser
    "hp" ⟨"Jane", "Smith"⟩ ⟨"pw"⟩ ⟨"a@b.co"⟩).1 rfl).1
